import Mathlib

/-!
Verification of the event-notification core of the `alexandria` package
(`alexandria/events.py`): the `ReAwaitable` memoizing-await wrapper, the
`Event` broadcast channel with its subscriber set, and the `Events`
registry.  The Python code runs single-threaded under trio's cooperative
scheduler; operations are embedded as pure state transformers, with the
trio memory-channel and coroutine-generator semantics made explicit.
-/

set_option maxRecDepth 4000

namespace Alexandria

/-- Exceptions that the embedded code can observe: an application exception
raised by a wrapped computation (tagged by a code), Python's RuntimeError
raised when an already-awaited coroutine generator is iterated again,
trio's BrokenResourceError raised by `send` on a channel whose receive side
was closed, and trio's Cancelled delivered at checkpoints of a cancelled
scope. -/
inductive Exc where
  | user (code : Nat)
  | runtimeReuse
  | brokenResource
  | cancelled
  deriving DecidableEq

deriving instance DecidableEq for Except

/-- The generator object obtained from an awaitable by calling its
dunder-await method (the Python type `Generator[Any, None, T]`).  Iterating
an unconsumed generator to exhaustion runs the computation body once and
produces `outcome`; once exhausted (`consumed = true`), iterating it again
raises RuntimeError (cannot reuse already awaited coroutine) without
running the body.  `runs` counts how many times the body actually ran. -/
structure Gen (α : Type) where
  outcome : Except Exc α
  consumed : Bool
  runs : Nat
  deriving DecidableEq

/-- Driving a generator to exhaustion: what the `await` expression does with
the generator returned by the dunder-await method. -/
def Gen.drive (g : Gen α) : Except Exc α × Gen α :=
  if g.consumed then (Except.error Exc.runtimeReuse, g)
  else (g.outcome, { g with consumed := true, runs := g.runs + 1 })

/-- `ReAwaitable` (events.py lines 24-37): `awaitable` is the generator of
the wrapped awaitable `self._awaitable`, `result?` is the `_result`
attribute, absent until the first dunder-await call sets it. -/
structure ReAwaitable (α : Type) where
  awaitable : Gen α
  result? : Option (Gen α)
  deriving DecidableEq

/-- `ReAwaitable.__init__` (lines 27-28): stores the awaitable; `_result`
is not yet set. -/
def ReAwaitable.init (a : Gen α) : ReAwaitable α := { awaitable := a, result? := none }

/-- `ReAwaitable.is_done` (lines 30-32): `hasattr(self, result attribute)`. -/
def ReAwaitable.is_done (r : ReAwaitable α) : Bool := r.result?.isSome

/-- `ReAwaitable.__await__` (lines 34-37): on the first call it stores the
wrapped awaitable's generator in `_result`; it always returns the stored
generator. -/
def ReAwaitable.awaitCall (r : ReAwaitable α) : Gen α × ReAwaitable α :=
  if r.is_done then (r.result?.getD r.awaitable, r)
  else (r.awaitable, { r with result? := some r.awaitable })

/-- A full `await r` expression: call the dunder-await method, then drive
the generator it returned.  The stored `_result` attribute aliases that
generator object, so the driven (exhausted) state persists in `result?`. -/
def ReAwaitable.awaitFull (r : ReAwaitable α) : Except Exc α × ReAwaitable α :=
  let c := r.awaitCall
  let d := c.1.drive
  (d.1, { c.2 with result? := some d.2 })

/-- Whether the underlying computation has been driven to completion at
least once (the stored generator, or the untouched wrapped one, has been
exhausted). -/
def ReAwaitable.completedOnce (r : ReAwaitable α) : Bool :=
  (r.result?.getD r.awaitable).consumed

/-- How many times the underlying computation body has actually run. -/
def ReAwaitable.runCount (r : ReAwaitable α) : Nat :=
  (r.result?.getD r.awaitable).runs

/-- One trio memory channel as held in the event's subscriber set: the
bounded FIFO buffer, its capacity, and whether the subscriber's receive
side has been closed (after which `send` raises BrokenResourceError). -/
structure Channel (α : Type) where
  buffer : List α
  capacity : Nat
  closed : Bool
  deriving DecidableEq

/-- The channel pair opened by `subscribe` (line 58):
`trio.open_memory_channel(256)`. -/
def freshChannel (α : Type) : Channel α :=
  { buffer := [], capacity := 256, closed := false }

/-- `Event` (events.py lines 40-68): the name and the subscriber set
`_channels`.  Python iterates the set in an unspecified order; the
embedding fixes a snapshot order by keeping the channels in a list, keyed
by the identity of the channel object. -/
structure Event (α : Type) where
  name : String
  channels : List (Nat × Channel α)
  deriving DecidableEq

/-- `Event.__init__` (lines 45-48). -/
def Event.init (α : Type) (name : String) : Event α :=
  { name := name, channels := [] }

/-- Result of the delivery loop of `trigger`: every send accepted, or the
loop suspended on a full channel (the call stays pending), or a send
raised and the exception propagates.  In each case `chans` is the
subscriber snapshot after the sends that did complete. -/
inductive SendRes (α : Type) where
  | ok (chans : List (Nat × Channel α))
  | blocked (chans : List (Nat × Channel α))
  | error (e : Exc) (chans : List (Nat × Channel α))
  deriving DecidableEq

/-- The delivery loop of `trigger` (lines 52-54): `await send_channel.send(payload)`
for each registered channel in turn.  `send` on a closed channel raises
BrokenResourceError; `send` on a full channel suspends; otherwise the
payload is appended to the FIFO. -/
def sendAll (p : α) : List (Nat × Channel α) → SendRes α
  | [] => SendRes.ok []
  | e :: rest =>
    if e.2.closed then SendRes.error Exc.brokenResource (e :: rest)
    else if e.2.capacity ≤ e.2.buffer.length then SendRes.blocked (e :: rest)
    else
      let e1 : Nat × Channel α := (e.1, { e.2 with buffer := e.2.buffer ++ [p] })
      match sendAll p rest with
      | SendRes.ok r => SendRes.ok (e1 :: r)
      | SendRes.blocked r => SendRes.blocked (e1 :: r)
      | SendRes.error ex r => SendRes.error ex (e1 :: r)

/-- `Event.trigger` (lines 50-54): under the lock, deliver to every
registered channel. -/
def Event.trigger (s : Event α) (p : α) : SendRes α := sendAll p s.channels

/-- The entry half of `Event.subscribe` (lines 58-61): open a fresh
256-slot channel pair and add the send half to the subscriber set. -/
def Event.subscribeEnter (s : Event α) (id : Nat) : Event α :=
  { s with channels := s.channels ++ [(id, freshChannel α)] }

/-- Closing the receive half of one channel (the `async with receive_channel`
block closes it on scope exit). -/
def closeChannel (l : List (Nat × Channel α)) (id : Nat) : List (Nat × Channel α) :=
  l.map (fun e => if e.1 == id then (e.1, { e.2 with closed := true }) else e)

/-- The exit half of `Event.subscribe` (lines 63-68).  The receive channel
is closed first (its `aclose` performs the close synchronously before its
checkpoint).  Then the `finally` block re-acquires the lock and removes
the send half — but `trio.Lock.acquire` starts with a cancellation
checkpoint, so when the surrounding scope has a pending cancellation the
acquire raises Cancelled and the removal is skipped. -/
def Event.subscribeExit (s : Event α) (id : Nat) (cancelPending : Bool) : Event α :=
  let s1 : Event α := { s with channels := closeChannel s.channels id }
  if cancelPending then s1
  else { s1 with channels := s1.channels.filter (fun e => !(e.1 == id)) }

/-- `receive` on the subscriber's half of a channel: suspends (none) on an
empty FIFO, otherwise pops the oldest payload. -/
def Channel.receive (c : Channel α) : Option (α × Channel α) :=
  match c.buffer with
  | [] => none
  | x :: rest => some (x, { c with buffer := rest })

/-- Look up the channel registered under a given identity. -/
def lookupChan : List (Nat × Channel α) → Nat → Option (Channel α)
  | [], _ => none
  | e :: rest, id => if e.1 == id then some e.2 else lookupChan rest id

/-- Replace the buffer of the channel registered under `id`. -/
def updateBuf (l : List (Nat × Channel α)) (id : Nat) (buf : List α) :
    List (Nat × Channel α) :=
  l.map (fun e => if e.1 == id then (e.1, { e.2 with buffer := buf }) else e)

/-- One serialized operation on an event, as interleaved by trio's
cooperative scheduler: a subscriber registering (the fresh channel gets
the next unused identity), a subscriber's scope exiting normally, a
producer's `trigger(p)` call, or one `receive()` call by the subscriber
holding channel `id`. -/
inductive Op (α : Type) where
  | subscribe
  | unsubscribe (id : Nat)
  | trigger (p : α)
  | receive (id : Nat)
  deriving DecidableEq

/-- The event state together with execution bookkeeping: the next unused
channel identity, the log of payloads returned by `receive` calls (with
the receiving channel's identity), and the ghost log of payloads that were
still buffered when their subscription was torn down (trio discards those
with the channel). -/
structure TraceState (α : Type) where
  ev : Event α
  next : Nat
  received : List (Nat × α)
  dropped : List (Nat × α)
  deriving DecidableEq

/-- A freshly constructed event with no history. -/
def initTrace (α : Type) : TraceState α :=
  { ev := Event.init α "event", next := 0, received := [], dropped := [] }

/-- Tag every payload of a list with a channel identity. -/
def tag (id : Nat) (l : List α) : List (Nat × α) :=
  l.map (fun x => (id, x))

/-- One step of the serialized execution.  `none` means the operation
cannot complete at this state (a receive on an empty or unregistered
channel, an unsubscribe of an unregistered channel, or a trigger that
suspends or raises), in which case the trace is not a completed
execution. -/
def step (s : TraceState α) : Op α → Option (TraceState α)
  | Op.subscribe =>
      some { s with ev := s.ev.subscribeEnter s.next, next := s.next + 1 }
  | Op.unsubscribe id =>
      match lookupChan s.ev.channels id with
      | some c =>
          some { s with ev := s.ev.subscribeExit id false,
                        dropped := s.dropped ++ tag id c.buffer }
      | none => none
  | Op.trigger p =>
      match sendAll p s.ev.channels with
      | SendRes.ok r => some { s with ev := { s.ev with channels := r } }
      | SendRes.blocked _ => none
      | SendRes.error _ _ => none
  | Op.receive id =>
      match lookupChan s.ev.channels id with
      | some c =>
          match c.buffer with
          | [] => none
          | x :: rest =>
              some { s with ev := { s.ev with channels := updateBuf s.ev.channels id rest },
                            received := s.received ++ [(id, x)] }
      | none => none

/-- Run a whole sequence of serialized operations. -/
def exec (s : TraceState α) : List (Op α) → Option (TraceState α)
  | [] => some s
  | op :: rest =>
    match step s op with
    | some s1 => exec s1 rest
    | none => none

/-- The payloads logged for channel `id`, in log order. -/
def seqOf (log : List (Nat × α)) (id : Nat) : List α :=
  (log.filter (fun e => e.1 == id)).map (fun e => e.2)

/-- The current FIFO contents of channel `id` (empty if unregistered). -/
def bufList (s : TraceState α) (id : Nat) : List α :=
  match lookupChan s.ev.channels id with
  | some c => c.buffer
  | none => []

/-- The payloads of the `trigger` operations of a trace that fire while
channel `id` is registered: the registration-window subsequence of the
triggered payloads, in trigger order. -/
def windowTriggers (id : Nat) : TraceState α → List (Op α) → List α
  | _, [] => []
  | s, op :: rest =>
    match step s op with
    | none => []
    | some s1 =>
      (match op with
       | Op.trigger p => if (lookupChan s.ev.channels id).isSome then [p] else []
       | _ => []) ++ windowTriggers id s1 rest

/-- Well-formedness of the bookkeeping: every registered channel identity
was allocated in the past (each `subscribe` call creates a fresh channel
object, so identities of live channels are below the allocation
counter). -/
def WFT (s : TraceState α) : Prop :=
  ∀ e ∈ s.ev.channels, e.1 < s.next

/-- Opaque payload types of the protocol layer (events.py imports them;
their structure is irrelevant to the event core). -/
structure Endpoint

structure SessionAPI

structure Ping

structure Pong

structure FindNodes

structure FoundNodes

structure Advertise

structure Ack

structure Locate

structure Locations

structure Retrieve

structure Chunk

structure MessageAPI (α : Type)

/-- `Events` (events.py lines 71-94): the registry, one typed `Event` per
declared field. -/
structure Events where
  listening : Event Endpoint
  session_created : Event SessionAPI
  session_idle : Event SessionAPI
  handshake_complete : Event SessionAPI
  handshake_timeout : Event SessionAPI
  sent_ping : Event (MessageAPI Ping)
  sent_pong : Event (MessageAPI Pong)
  sent_find_nodes : Event (MessageAPI FindNodes)
  sent_found_nodes : Event (MessageAPI FoundNodes)
  sent_advertise : Event (MessageAPI Advertise)
  sent_ack : Event (MessageAPI Ack)
  sent_locate : Event (MessageAPI Locate)
  sent_locations : Event (MessageAPI Locations)
  sent_retrieve : Event (MessageAPI Retrieve)
  sent_chunk : Event (MessageAPI Chunk)

/-- `Events.__init__` (lines 72-94). -/
def Events.init : Events :=
  { listening := Event.init Endpoint "listening"
    session_created := Event.init SessionAPI "session-created"
    session_idle := Event.init SessionAPI "session-idle"
    handshake_complete := Event.init SessionAPI "handshake-complete"
    handshake_timeout := Event.init SessionAPI "handshake-timeout"
    sent_ping := Event.init (MessageAPI Ping) "sent-Ping"
    sent_pong := Event.init (MessageAPI Pong) "sent-Pong"
    sent_find_nodes := Event.init (MessageAPI FindNodes) "sent-FindNodes"
    sent_found_nodes := Event.init (MessageAPI FoundNodes) "sent-FoundNodes"
    sent_advertise := Event.init (MessageAPI Advertise) "sent-Advertise"
    sent_ack := Event.init (MessageAPI Ack) "sent-Ack"
    sent_locate := Event.init (MessageAPI Locate) "sent-Locate"
    sent_locations := Event.init (MessageAPI Locations) "sent-Locations"
    sent_retrieve := Event.init (MessageAPI Retrieve) "sent-Retrieve"
    sent_chunk := Event.init (MessageAPI Chunk) "sent-Chunk" }

/-- The names of all declared registry events, in declaration order. -/
def Events.names (e : Events) : List String :=
  [e.listening.name, e.session_created.name, e.session_idle.name,
   e.handshake_complete.name, e.handshake_timeout.name,
   e.sent_ping.name, e.sent_pong.name,
   e.sent_find_nodes.name, e.sent_found_nodes.name,
   e.sent_advertise.name, e.sent_ack.name,
   e.sent_locate.name, e.sent_locations.name,
   e.sent_retrieve.name, e.sent_chunk.name]

/-- The subscriber sets of all declared registry events, in declaration
order (existentially typed only through their emptiness). -/
def Events.allEmpty (e : Events) : Prop :=
  e.listening.channels = [] ∧ e.session_created.channels = [] ∧
  e.session_idle.channels = [] ∧ e.handshake_complete.channels = [] ∧
  e.handshake_timeout.channels = [] ∧ e.sent_ping.channels = [] ∧
  e.sent_pong.channels = [] ∧ e.sent_find_nodes.channels = [] ∧
  e.sent_found_nodes.channels = [] ∧ e.sent_advertise.channels = [] ∧
  e.sent_ack.channels = [] ∧ e.sent_locate.channels = [] ∧
  e.sent_locations.channels = [] ∧ e.sent_retrieve.channels = [] ∧
  e.sent_chunk.channels = []

/-- The effect of one completed `send` of payload `p` on a registered
channel entry. -/
def pushPayload (p : α) (e : Nat × Channel α) : Nat × Channel α :=
  (e.1, { e.2 with buffer := e.2.buffer ++ [p] })

/-- A sequence of `trigger` calls, each required to complete (deliver to
every subscriber without suspending or raising). -/
def triggerFold (s : Event α) : List α → Option (Event α)
  | [] => some s
  | p :: rest =>
    match s.trigger p with
    | SendRes.ok r => triggerFold { s with channels := r } rest
    | SendRes.blocked _ => none
    | SendRes.error _ _ => none

/-- A concrete trace: subscriber 0 registers, sees triggers 7 8 9 (receiving
7 and 8 and leaving 9 queued at teardown), subscriber 1 registers before
trigger 9 and stays registered through trigger 3. -/
def e5ops : List (Op Nat) :=
  [Op.subscribe, Op.trigger 7, Op.trigger 8, Op.receive 0, Op.subscribe,
   Op.trigger 9, Op.receive 0, Op.unsubscribe 0, Op.trigger 3]

/-- The final state of that concrete trace. -/
def e5final : TraceState Nat :=
  (exec (initTrace Nat) e5ops).getD (initTrace Nat)

theorem lookupChan_nil (id : Nat) : lookupChan ([] : List (Nat × Channel α)) id = none := rfl

theorem lookupChan_cons (e : Nat × Channel α) (l : List (Nat × Channel α)) (id : Nat) :
    lookupChan (e :: l) id = if e.1 == id then some e.2 else lookupChan l id := rfl

theorem lookupChan_append (l₁ l₂ : List (Nat × Channel α)) (id : Nat) :
    lookupChan (l₁ ++ l₂) id
      = match lookupChan l₁ id with
        | some c => some c
        | none => lookupChan l₂ id := by
  induction l₁ with
  | nil => simp [lookupChan]
  | cons e rest ih =>
    by_cases h : e.1 = id
    · simp [lookupChan, h]
    · simp only [List.cons_append, lookupChan_cons, beq_iff_eq, if_neg h, ih]

theorem lookupChan_map_push (l : List (Nat × Channel α)) (p : α) (id : Nat) :
    lookupChan (l.map (pushPayload p)) id
      = (lookupChan l id).map (fun c => { c with buffer := c.buffer ++ [p] }) := by
  induction l with
  | nil => simp [lookupChan]
  | cons e rest ih =>
    by_cases h : e.1 = id
    · simp [lookupChan, pushPayload, h]
    · simp only [List.map_cons, lookupChan_cons, pushPayload, beq_iff_eq, if_neg h, ih]

theorem updateBuf_cons (e : Nat × Channel α) (l : List (Nat × Channel α)) (id : Nat)
    (buf : List α) :
    updateBuf (e :: l) id buf
      = (if e.1 == id then (e.1, { e.2 with buffer := buf }) else e) :: updateBuf l id buf := rfl

theorem closeChannel_cons (e : Nat × Channel α) (l : List (Nat × Channel α)) (id : Nat) :
    closeChannel (e :: l) id
      = (if e.1 == id then (e.1, { e.2 with closed := true }) else e) :: closeChannel l id := rfl

theorem lookupChan_update_self (l : List (Nat × Channel α)) (id : Nat) (buf : List α) :
    lookupChan (updateBuf l id buf) id
      = (lookupChan l id).map (fun c => { c with buffer := buf }) := by
  induction l with
  | nil => simp [lookupChan, updateBuf]
  | cons e rest ih =>
    by_cases h : e.1 = id
    · simp [updateBuf_cons, lookupChan_cons, h]
    · simp [updateBuf_cons, lookupChan_cons, h, ih]

theorem lookupChan_update_other (l : List (Nat × Channel α)) (id id' : Nat) (buf : List α)
    (h : id' ≠ id) :
    lookupChan (updateBuf l id buf) id' = lookupChan l id' := by
  induction l with
  | nil => simp [lookupChan, updateBuf]
  | cons e rest ih =>
    have hss : id ≠ id' := fun hx => h hx.symm
    by_cases he : e.1 = id
    · simp [updateBuf_cons, lookupChan_cons, he, hss, ih]
    · by_cases he' : e.1 = id'
      · simp [updateBuf_cons, lookupChan_cons, he, he', h]
      · simp [updateBuf_cons, lookupChan_cons, he, he', ih]

theorem lookupChan_close_other (l : List (Nat × Channel α)) (id id' : Nat) (h : id' ≠ id) :
    lookupChan (closeChannel l id) id' = lookupChan l id' := by
  induction l with
  | nil => simp [lookupChan, closeChannel]
  | cons e rest ih =>
    have hss : id ≠ id' := fun hx => h hx.symm
    by_cases he : e.1 = id
    · simp [closeChannel_cons, lookupChan_cons, he, hss, ih]
    · by_cases he' : e.1 = id'
      · simp [closeChannel_cons, lookupChan_cons, he, he', h]
      · simp [closeChannel_cons, lookupChan_cons, he, he', ih]

theorem lookupChan_filter_self (l : List (Nat × Channel α)) (id : Nat) :
    lookupChan (l.filter (fun e => !(e.1 == id))) id = none := by
  induction l with
  | nil => simp [lookupChan]
  | cons e rest ih =>
    rw [List.filter_cons]
    by_cases he : e.1 = id
    · rw [if_neg (by simp [he])]
      exact ih
    · rw [if_pos (by simp [he])]
      rw [lookupChan_cons, if_neg (by simpa using he)]
      exact ih

theorem lookupChan_filter_other (l : List (Nat × Channel α)) (id id' : Nat) (h : id' ≠ id) :
    lookupChan (l.filter (fun e => !(e.1 == id))) id' = lookupChan l id' := by
  induction l with
  | nil => simp [lookupChan]
  | cons e rest ih =>
    rw [List.filter_cons, lookupChan_cons]
    by_cases he : e.1 = id
    · have hne : e.1 ≠ id' := by rw [he]; exact fun hx => h hx.symm
      rw [if_neg (by simp [he])]
      rw [if_neg (by simpa using hne)]
      exact ih
    · rw [if_pos (by simp [he])]
      rw [lookupChan_cons]
      by_cases he' : e.1 = id'
      · rw [if_pos (by simpa using he'), if_pos (by simpa using he')]
      · rw [if_neg (by simpa using he'), if_neg (by simpa using he')]
        exact ih

theorem lookupChan_eq_none_of_forall (l : List (Nat × Channel α)) (id : Nat)
    (h : ∀ e ∈ l, e.1 ≠ id) : lookupChan l id = none := by
  induction l with
  | nil => rfl
  | cons e rest ih =>
    rw [lookupChan_cons, if_neg (by simpa using h e (List.mem_cons_self _ _))]
    exact ih fun x hx => h x (List.mem_cons_of_mem _ hx)

theorem lookupChan_some_mem (l : List (Nat × Channel α)) (id : Nat)
    (h : (lookupChan l id).isSome) : ∃ e ∈ l, e.1 = id := by
  induction l with
  | nil => simp [lookupChan] at h
  | cons e rest ih =>
    rw [lookupChan_cons] at h
    by_cases he : e.1 = id
    · exact ⟨e, List.mem_cons_self _ _, he⟩
    · rw [if_neg (by simpa using he)] at h
      rcases ih h with ⟨x, hx, hxid⟩
      exact ⟨x, List.mem_cons_of_mem _ hx, hxid⟩

theorem seqOf_nil (id : Nat) : seqOf ([] : List (Nat × α)) id = [] := rfl

theorem seqOf_append (a b : List (Nat × α)) (id : Nat) :
    seqOf (a ++ b) id = seqOf a id ++ seqOf b id := by
  simp [seqOf, List.filter_append]

theorem seqOf_single (j : Nat) (x : α) (id : Nat) :
    seqOf [(j, x)] id = if j = id then [x] else [] := by
  by_cases h : j = id
  · simp [seqOf, h]
  · simp [seqOf, h]

theorem seqOf_tag_self (l : List α) (id : Nat) : seqOf (tag id l) id = l := by
  induction l with
  | nil => rfl
  | cons x rest ih =>
    simp only [tag, List.map_cons, seqOf, List.filter_cons]
    rw [if_pos (by simp)]
    simp only [List.map_cons]
    simp only [tag, seqOf] at ih
    rw [ih]

theorem seqOf_tag_other (l : List α) (id id' : Nat) (h : id' ≠ id) :
    seqOf (tag id l) id' = [] := by
  induction l with
  | nil => rfl
  | cons x rest ih =>
    simp only [tag, List.map_cons, seqOf, List.filter_cons]
    rw [if_neg (by simpa using fun hx : id = id' => h hx.symm)]
    simpa [tag, seqOf] using ih

theorem mem_map_fst_eq {f : Nat × Channel α → Nat × Channel α}
    (hf : ∀ a, (f a).1 = a.1) (l : List (Nat × Channel α)) (e : Nat × Channel α)
    (he : e ∈ l.map f) : ∃ a ∈ l, e.1 = a.1 := by
  rcases List.mem_map.mp he with ⟨a, ha, rfl⟩
  exact ⟨a, ha, hf a⟩

theorem sendAll_ok_eq (p : α) (l : List (Nat × Channel α)) :
    ∀ r, sendAll p l = SendRes.ok r → r = l.map (pushPayload p) := by
  induction l with
  | nil =>
    intro r h
    simpa [sendAll] using h.symm
  | cons e rest ih =>
    intro r h
    unfold sendAll at h
    by_cases hc : e.2.closed = true
    · rw [if_pos hc] at h
      exact absurd h (by simp)
    · rw [if_neg hc] at h
      by_cases hf : e.2.capacity ≤ e.2.buffer.length
      · rw [if_pos hf] at h
        exact absurd h (by simp)
      · rw [if_neg hf] at h
        cases hr : sendAll p rest with
        | ok r' =>
          rw [hr] at h
          simp only [SendRes.ok.injEq] at h
          rw [← h, ih r' hr, List.map_cons]
          rfl
        | blocked r' =>
          rw [hr] at h
          exact absurd h (by simp)
        | error ex r' =>
          rw [hr] at h
          exact absurd h (by simp)

/-- `step` preserves the allocation bound. -/
theorem WFT_step (s s' : TraceState α) (op : Op α) (h : step s op = some s')
    (hw : WFT s) : WFT s' := by
  cases op with
  | subscribe =>
    simp only [step, Option.some.injEq] at h
    subst h
    intro e he
    rcases List.mem_append.mp he with hml | hml
    · exact Nat.lt_succ_of_lt (hw e hml)
    · simp only [List.mem_singleton] at hml
      subst hml
      exact Nat.lt_succ_self _
  | unsubscribe id =>
    simp only [step] at h
    cases hl : lookupChan s.ev.channels id with
    | none => rw [hl] at h; exact absurd h (by simp)
    | some c =>
      rw [hl] at h
      simp only [Option.some.injEq] at h
      subst h
      intro e he
      simp only [Event.subscribeExit] at he
      rw [if_neg (by simp)] at he
      have he2 := List.mem_of_mem_filter he
      rcases mem_map_fst_eq (f := fun e => if e.1 == id then (e.1, { e.2 with closed := true }) else e)
          (by intro a; by_cases ha : a.1 = id <;> simp [ha]) _ _ he2 with ⟨a, ha, hfst⟩
      rw [hfst]
      exact hw a ha
  | trigger p =>
    simp only [step] at h
    cases hr : sendAll p s.ev.channels with
    | ok r =>
      rw [hr] at h
      simp only [Option.some.injEq] at h
      subst h
      intro e he
      simp only at he
      rw [sendAll_ok_eq p _ r hr] at he
      rcases mem_map_fst_eq (f := pushPayload p)
          (by intro a; rfl) _ _ he with ⟨a, ha, hfst⟩
      rw [hfst]
      exact hw a ha
    | blocked r => rw [hr] at h; exact absurd h (by simp)
    | error ex r => rw [hr] at h; exact absurd h (by simp)
  | receive id =>
    simp only [step] at h
    cases hl : lookupChan s.ev.channels id with
    | none => rw [hl] at h; exact absurd h (by simp)
    | some c =>
      rw [hl] at h
      obtain ⟨buf, cap, cl⟩ := c
      cases buf with
      | nil => exact absurd h (by simp)
      | cons x rest =>
        simp only [Option.some.injEq] at h
        subst h
        intro e he
        simp only at he
        rcases mem_map_fst_eq (f := fun e => if e.1 == id then (e.1, { e.2 with buffer := rest }) else e)
            (by intro a; by_cases ha : a.1 = id <;> simp [ha]) _ _ he with ⟨a, ha, hfst⟩
        rw [hfst]
        exact hw a ha

theorem subscribeExit_false_channels (s : Event α) (id : Nat) :
    (s.subscribeExit id false).channels
      = (closeChannel s.channels id).filter (fun e => !(e.1 == id)) := rfl

theorem step_subscribe_eq (s : TraceState α) :
    step s Op.subscribe
      = some { s with ev := s.ev.subscribeEnter s.next, next := s.next + 1 } := rfl

theorem step_unsubscribe_eq (s : TraceState α) (j : Nat) (c : Channel α)
    (h : lookupChan s.ev.channels j = some c) :
    step s (Op.unsubscribe j)
      = some { s with ev := s.ev.subscribeExit j false,
                      dropped := s.dropped ++ tag j c.buffer } := by
  simp [step, h]

theorem step_unsubscribe_none (s : TraceState α) (j : Nat)
    (h : lookupChan s.ev.channels j = none) :
    step s (Op.unsubscribe j) = none := by
  simp [step, h]

theorem step_trigger_eq (s : TraceState α) (p : α) (r : List (Nat × Channel α))
    (h : sendAll p s.ev.channels = SendRes.ok r) :
    step s (Op.trigger p) = some { s with ev := { s.ev with channels := r } } := by
  simp [step, h]

theorem step_receive_eq (s : TraceState α) (j : Nat) (c : Channel α) (x : α) (xs : List α)
    (hc : lookupChan s.ev.channels j = some c) (hb : c.buffer = x :: xs) :
    step s (Op.receive j)
      = some { s with ev := { s.ev with channels := updateBuf s.ev.channels j xs },
                      received := s.received ++ [(j, x)] } := by
  simp [step, hc, hb]

theorem exec_cons_some (s s' : TraceState α) (op : Op α) (rest : List (Op α))
    (h : step s op = some s') : exec s (op :: rest) = exec s' rest := by
  simp [exec, h]

theorem windowTriggers_nil (id : Nat) (s : TraceState α) :
    windowTriggers id s [] = [] := rfl

theorem windowTriggers_cons_subscribe (id : Nat) (s s' : TraceState α) (rest : List (Op α))
    (h : step s Op.subscribe = some s') :
    windowTriggers id s (Op.subscribe :: rest) = windowTriggers id s' rest := by
  simp [windowTriggers, h]

theorem windowTriggers_cons_unsubscribe (id j : Nat) (s s' : TraceState α) (rest : List (Op α))
    (h : step s (Op.unsubscribe j) = some s') :
    windowTriggers id s (Op.unsubscribe j :: rest) = windowTriggers id s' rest := by
  simp [windowTriggers, h]

theorem windowTriggers_cons_receive (id j : Nat) (s s' : TraceState α) (rest : List (Op α))
    (h : step s (Op.receive j) = some s') :
    windowTriggers id s (Op.receive j :: rest) = windowTriggers id s' rest := by
  simp [windowTriggers, h]

theorem windowTriggers_cons_trigger (id : Nat) (s s' : TraceState α) (p : α)
    (rest : List (Op α)) (h : step s (Op.trigger p) = some s') :
    windowTriggers id s (Op.trigger p :: rest)
      = (if (lookupChan s.ev.channels id).isSome then [p] else [])
          ++ windowTriggers id s' rest := by
  simp [windowTriggers, h]

theorem freshChannel_buffer (α : Type) : (freshChannel α).buffer = [] := rfl

theorem exec_cons_none (s : TraceState α) (op : Op α) (rest : List (Op α))
    (h : step s op = none) : exec s (op :: rest) = none := by
  simp [exec, h]

theorem step_trigger_blocked (s : TraceState α) (p : α) (r : List (Nat × Channel α))
    (h : sendAll p s.ev.channels = SendRes.blocked r) : step s (Op.trigger p) = none := by
  simp [step, h]

theorem step_trigger_error (s : TraceState α) (p : α) (ex : Exc) (r : List (Nat × Channel α))
    (h : sendAll p s.ev.channels = SendRes.error ex r) : step s (Op.trigger p) = none := by
  simp [step, h]

theorem step_receive_none_chan (s : TraceState α) (j : Nat)
    (h : lookupChan s.ev.channels j = none) : step s (Op.receive j) = none := by
  simp [step, h]

theorem step_receive_none_empty (s : TraceState α) (j : Nat) (c : Channel α)
    (hc : lookupChan s.ev.channels j = some c) (hb : c.buffer = []) :
    step s (Op.receive j) = none := by
  simp [step, hc, hb]

/-- The accounting invariant behind claim C5: over any completed serialized
trace, a channel's received payloads, still-buffered payloads and payloads
dropped at its teardown concatenate to exactly the trigger payloads of its
registration window.  Three regimes: currently registered (with nothing
dropped yet), already torn down, and not yet allocated. -/
theorem exec_acct (ops : List (Op α)) :
    ∀ s s1 : TraceState α, exec s ops = some s1 → WFT s → ∀ id : Nat,
      ((lookupChan s.ev.channels id).isSome → seqOf s.dropped id = [] →
        seqOf s1.received id ++ bufList s1 id ++ seqOf s1.dropped id
          = seqOf s.received id ++ bufList s id ++ windowTriggers id s ops) ∧
      (lookupChan s.ev.channels id = none → id < s.next →
        seqOf s1.received id = seqOf s.received id ∧ bufList s1 id = [] ∧
          seqOf s1.dropped id = seqOf s.dropped id ∧ windowTriggers id s ops = []) ∧
      (s.next ≤ id → seqOf s.received id = [] → seqOf s.dropped id = [] →
        seqOf s1.received id ++ bufList s1 id ++ seqOf s1.dropped id
          = windowTriggers id s ops) := by
  induction ops with
  | nil =>
    intro s s1 h hw id
    simp only [exec, Option.some.injEq] at h
    subst h
    refine ⟨?_, ?_, ?_⟩
    · intro _ hdrop
      rw [windowTriggers_nil, hdrop]
    · intro hnone _
      exact ⟨rfl, by simp [bufList, hnone], rfl, rfl⟩
    · intro hge hrecv hdrop
      have hnone : lookupChan s.ev.channels id = none :=
        lookupChan_eq_none_of_forall _ _
          (fun e he hx => absurd (hw e he) (by rw [hx]; omega))
      rw [windowTriggers_nil, hrecv, hdrop]
      simp [bufList, hnone]
  | cons op rest ih =>
    intro s s1 h hw id
    cases op with
    | subscribe =>
      have hstep := step_subscribe_eq s
      rw [exec_cons_some _ _ _ _ hstep] at h
      have hw' := WFT_step _ _ _ hstep hw
      have IH := ih _ s1 h hw' id
      rw [windowTriggers_cons_subscribe id s _ rest hstep]
      dsimp only [Event.subscribeEnter] at IH ⊢
      refine ⟨?_, ?_, ?_⟩
      · intro hreg hdrop
        rcases Option.isSome_iff_exists.mp hreg with ⟨c, hc⟩
        have hlook' : lookupChan (s.ev.channels ++ [(s.next, freshChannel α)]) id = some c := by
          rw [lookupChan_append, hc]
        have h1 := IH.1 (by rw [hlook']; rfl) hdrop
        rw [h1]
        have hbuf : lookupChan (s.ev.channels ++ [(s.next, freshChannel α)]) id
            = lookupChan s.ev.channels id := by rw [hlook', hc]
        simp [bufList, hbuf]
      · intro hnone hlt
        have hne : s.next ≠ id := by omega
        have hlook' : lookupChan (s.ev.channels ++ [(s.next, freshChannel α)]) id = none := by
          rw [lookupChan_append, hnone, lookupChan_cons]
          rw [if_neg (by simpa using hne)]
          rfl
        have h2 := IH.2.1 hlook' (Nat.lt_succ_of_lt hlt)
        exact h2
      · intro hge hrecv hdrop
        by_cases hid : id = s.next
        · subst hid
          have hlnone : lookupChan s.ev.channels s.next = none :=
            lookupChan_eq_none_of_forall _ _
              (fun e he hx => absurd (hw e he) (by rw [hx]; omega))
          have hlook' : lookupChan (s.ev.channels ++ [(s.next, freshChannel α)]) s.next
              = some (freshChannel α) := by
            rw [lookupChan_append, hlnone, lookupChan_cons]
            rw [if_pos (by simp)]
          have h1 := IH.1 (by rw [hlook']; rfl) hdrop
          rw [h1]
          simp [bufList, hlook', freshChannel_buffer, hrecv]
        · have hgt : s.next + 1 ≤ id := by omega
          have hlook' : lookupChan (s.ev.channels ++ [(s.next, freshChannel α)]) id = none := by
            have hlnone : lookupChan s.ev.channels id = none :=
              lookupChan_eq_none_of_forall _ _
                (fun e he hx => absurd (hw e he) (by rw [hx]; omega))
            rw [lookupChan_append, hlnone, lookupChan_cons]
            rw [if_neg (by simpa using fun hx : s.next = id => hid hx.symm)]
            rfl
          exact IH.2.2 hgt hrecv hdrop
    | unsubscribe j =>
      cases hlj : lookupChan s.ev.channels j with
      | none =>
        rw [exec_cons_none _ _ _ (step_unsubscribe_none s j hlj)] at h
        cases h
      | some c =>
        have hstep := step_unsubscribe_eq s j c hlj
        rw [exec_cons_some _ _ _ _ hstep] at h
        have hw' := WFT_step _ _ _ hstep hw
        have IH := ih _ s1 h hw' id
        rw [windowTriggers_cons_unsubscribe id j s _ rest hstep]
        dsimp only at IH ⊢
        simp only [subscribeExit_false_channels] at IH
        have hjlt : j < s.next := by
          rcases lookupChan_some_mem _ _ (by rw [hlj]; rfl) with ⟨e, he, heid⟩
          rw [← heid]
          exact hw e he
        refine ⟨?_, ?_, ?_⟩
        · intro hreg hdrop
          by_cases hij : id = j
          · subst hij
            have hlook' : lookupChan
                ((closeChannel s.ev.channels id).filter (fun e => !(e.1 == id))) id = none :=
              lookupChan_filter_self _ _
            have h2 := IH.2.1 hlook' hjlt
            rw [h2.1, h2.2.1, h2.2.2.1, h2.2.2.2]
            simp [seqOf_append, seqOf_tag_self, hdrop, bufList, hlj]
          · have hlook' : lookupChan
                ((closeChannel s.ev.channels j).filter (fun e => !(e.1 == j))) id
                = lookupChan s.ev.channels id := by
              rw [lookupChan_filter_other _ _ _ hij, lookupChan_close_other _ _ _ hij]
            have hdrop' : seqOf (s.dropped ++ tag j c.buffer) id = [] := by
              rw [seqOf_append, hdrop, seqOf_tag_other _ _ _ hij]
              rfl
            have h1 := IH.1 (by rw [hlook']; exact hreg) hdrop'
            rw [h1]
            simp [bufList, subscribeExit_false_channels, hlook']
        · intro hnone hlt
          have hij : id ≠ j := by
            intro hx
            rw [hx, hlj] at hnone
            cases hnone
          have hlook' : lookupChan
              ((closeChannel s.ev.channels j).filter (fun e => !(e.1 == j))) id = none := by
            rw [lookupChan_filter_other _ _ _ hij, lookupChan_close_other _ _ _ hij]
            exact hnone
          have h2 := IH.2.1 hlook' hlt
          refine ⟨h2.1, h2.2.1, ?_, h2.2.2.2⟩
          rw [h2.2.2.1, seqOf_append, seqOf_tag_other _ _ _ hij]
          simp
        · intro hge hrecv hdrop
          have hij : id ≠ j := by omega
          have hdrop' : seqOf (s.dropped ++ tag j c.buffer) id = [] := by
            rw [seqOf_append, hdrop, seqOf_tag_other _ _ _ hij]
            rfl
          exact IH.2.2 hge hrecv hdrop'
    | trigger p =>
      cases hsend : sendAll p s.ev.channels with
      | ok r =>
        have hstep := step_trigger_eq s p r hsend
        rw [exec_cons_some _ _ _ _ hstep] at h
        have hw' := WFT_step _ _ _ hstep hw
        have IH := ih _ s1 h hw' id
        rw [windowTriggers_cons_trigger id s _ p rest hstep]
        have hr := sendAll_ok_eq p _ r hsend
        subst hr
        dsimp only at IH ⊢
        refine ⟨?_, ?_, ?_⟩
        · intro hreg hdrop
          rcases Option.isSome_iff_exists.mp hreg with ⟨c, hc⟩
          have hlook' : lookupChan (s.ev.channels.map (pushPayload p)) id
              = some { c with buffer := c.buffer ++ [p] } := by
            rw [lookupChan_map_push, hc]
            rfl
          have h1 := IH.1 (by rw [hlook']; rfl) hdrop
          rw [h1]
          rw [if_pos hreg]
          simp [bufList, hlook', hc, List.append_assoc]
        · intro hnone hlt
          have hlook' : lookupChan (s.ev.channels.map (pushPayload p)) id = none := by
            rw [lookupChan_map_push, hnone]
            rfl
          have h2 := IH.2.1 hlook' hlt
          refine ⟨h2.1, h2.2.1, h2.2.2.1, ?_⟩
          rw [hnone]
          simpa using h2.2.2.2
        · intro hge hrecv hdrop
          have hnone : lookupChan s.ev.channels id = none :=
            lookupChan_eq_none_of_forall _ _
              (fun e he hx => absurd (hw e he) (by rw [hx]; omega))
          have h3 := IH.2.2 hge hrecv hdrop
          rw [hnone]
          simpa using h3
      | blocked r =>
        rw [exec_cons_none _ _ _ (step_trigger_blocked s p r hsend)] at h
        cases h
      | error ex r =>
        rw [exec_cons_none _ _ _ (step_trigger_error s p ex r hsend)] at h
        cases h
    | receive j =>
      cases hlj : lookupChan s.ev.channels j with
      | none =>
        rw [exec_cons_none _ _ _ (step_receive_none_chan s j hlj)] at h
        cases h
      | some c =>
        cases hb : c.buffer with
        | nil =>
          rw [exec_cons_none _ _ _ (step_receive_none_empty s j c hlj hb)] at h
          cases h
        | cons x xs =>
          have hstep := step_receive_eq s j c x xs hlj hb
          rw [exec_cons_some _ _ _ _ hstep] at h
          have hw' := WFT_step _ _ _ hstep hw
          have IH := ih _ s1 h hw' id
          rw [windowTriggers_cons_receive id j s _ rest hstep]
          dsimp only at IH ⊢
          have hjlt : j < s.next := by
            rcases lookupChan_some_mem _ _ (by rw [hlj]; rfl) with ⟨e, he, heid⟩
            rw [← heid]
            exact hw e he
          refine ⟨?_, ?_, ?_⟩
          · intro hreg hdrop
            by_cases hij : id = j
            · subst hij
              have hlook' : lookupChan (updateBuf s.ev.channels id xs) id
                  = some { c with buffer := xs } := by
                rw [lookupChan_update_self, hlj]
                rfl
              have h1 := IH.1 (by rw [hlook']; rfl) hdrop
              rw [h1]
              simp [seqOf_append, seqOf_single, bufList, hlj, hb, hlook', List.append_assoc]
            · have hlook' : lookupChan (updateBuf s.ev.channels j xs) id
                  = lookupChan s.ev.channels id := lookupChan_update_other _ _ _ _ hij
              have h1 := IH.1 (by rw [hlook']; exact hreg) hdrop
              rw [h1]
              have hji : j ≠ id := fun hx => hij hx.symm
              simp [seqOf_append, seqOf_single, bufList, hlook', hji]
          · intro hnone hlt
            have hij : id ≠ j := by
              intro hx
              rw [hx, hlj] at hnone
              cases hnone
            have hji : j ≠ id := fun hx => hij hx.symm
            have hlook' : lookupChan (updateBuf s.ev.channels j xs) id
                = lookupChan s.ev.channels id := lookupChan_update_other _ _ _ _ hij
            have h2 := IH.2.1 (by rw [hlook']; exact hnone) hlt
            refine ⟨?_, h2.2.1, h2.2.2.1, h2.2.2.2⟩
            rw [h2.1, seqOf_append, seqOf_single]
            rw [if_neg hji]
            simp
          · intro hge hrecv hdrop
            have hij : id ≠ j := by omega
            have hji : j ≠ id := fun hx => hij hx.symm
            have hrecv' : seqOf (s.received ++ [(j, x)]) id = [] := by
              rw [seqOf_append, hrecv, seqOf_single, if_neg hji]
              rfl
            exact IH.2.2 hge hrecv' hdrop

/-- Claim C5: over any completed serialized trace on a fresh event, each
channel's received sequence, still-queued payloads and teardown-dropped
payloads concatenate to exactly the trigger payloads fired while that
channel was registered, in trigger order.  Receives pop the FIFO in order,
so a subscriber observes precisely its registration window's subsequence
of the triggered payloads, and one that drains its queue before
unsubscribing has received exactly that subsequence. -/
theorem received_window_accounting (α : Type) (ops : List (Op α)) (s1 : TraceState α)
    (h : exec (initTrace α) ops = some s1) (id : Nat) :
    seqOf s1.received id ++ bufList s1 id ++ seqOf s1.dropped id
      = windowTriggers id (initTrace α) ops :=
  (exec_acct ops (initTrace α) s1 h
      (fun e he => absurd he (List.not_mem_nil e)) id).2.2
    (Nat.zero_le id) rfl rfl

/-- Witness for C5 on the concrete trace: subscriber 0's accounting equals
its window (it received 7 and 8, and 9 was still queued at teardown). -/
theorem received_window_accounting_witness :
    seqOf e5final.received 0 ++ bufList e5final 0 ++ seqOf e5final.dropped 0
      = windowTriggers 0 (initTrace Nat) e5ops :=
  received_window_accounting Nat e5ops e5final (by rfl) 0

/-- Claim C2 (code bug): for a computation that already completed
successfully with value 42, re-awaiting does not return the cached 42.
`ReAwaitable.__await__` cached the generator rather than its result, so
the first await yields 42, but the second await re-drives the exhausted
generator and raises RuntimeError (cannot reuse already awaited
coroutine); the computation body itself is not re-run. -/
theorem reawait_second_await_loses_value :
    (ReAwaitable.init { outcome := Except.ok 42, consumed := false, runs := 0 } :
        ReAwaitable Nat).awaitFull.1 = Except.ok 42 ∧
    (ReAwaitable.init { outcome := Except.ok 42, consumed := false, runs := 0 } :
        ReAwaitable Nat).awaitFull.2.awaitFull.1 = Except.error Exc.runtimeReuse ∧
    (ReAwaitable.init { outcome := Except.ok 42, consumed := false, runs := 0 } :
        ReAwaitable Nat).awaitFull.2.awaitFull.2.runCount = 1 := by
  decide

/-- Claim C3 (code bug): `is_done` tests `hasattr` of the `_result`
attribute, which `__await__` sets as soon as it is first called — before
the computation has been driven to completion.  At a state where awaiting
has started (the dunder-await call happened) but the generator has not
been exhausted, `is_done` is already true while no completion has
occurred. -/
theorem is_done_true_before_completion :
    (ReAwaitable.init { outcome := Except.ok 42, consumed := false, runs := 0 } :
        ReAwaitable Nat).awaitCall.2.is_done = true ∧
    (ReAwaitable.init { outcome := Except.ok 42, consumed := false, runs := 0 } :
        ReAwaitable Nat).awaitCall.2.completedOnce = false ∧
    (ReAwaitable.init { outcome := Except.ok 42, consumed := false, runs := 0 } :
        ReAwaitable Nat).awaitCall.2.runCount = 0 := by
  decide

/-- Claim C4 (code bug): a failing computation's failure is not cached.
The first await raises the computation's own exception (here `user 7`),
but a second awaiter gets RuntimeError from the exhausted generator, not
the original failure; the computation body is not retried. -/
theorem reawait_failure_not_cached :
    (ReAwaitable.init { outcome := Except.error (Exc.user 7), consumed := false, runs := 0 } :
        ReAwaitable Nat).awaitFull.1 = Except.error (Exc.user 7) ∧
    (ReAwaitable.init { outcome := Except.error (Exc.user 7), consumed := false, runs := 0 } :
        ReAwaitable Nat).awaitFull.2.awaitFull.1 = Except.error Exc.runtimeReuse ∧
    (ReAwaitable.init { outcome := Except.error (Exc.user 7), consumed := false, runs := 0 } :
        ReAwaitable Nat).awaitFull.2.awaitFull.2.runCount = 1 := by
  decide

/-- Claim C1 counterexample: with a concurrently-closed subscriber (id 0)
and a live subscriber (id 1) in the snapshot, `trigger 5` raises
BrokenResourceError out of the call and the live subscriber's queue stays
empty — the failure propagates out of `trigger` and aborts delivery to
the remaining subscriber. -/
theorem trigger_closed_counterexample :
    Event.trigger
        { name := "e",
          channels := [(0, { buffer := [], capacity := 256, closed := true }),
                       (1, freshChannel Nat)] } 5
      = SendRes.error Exc.brokenResource
          [(0, { buffer := [], capacity := 256, closed := true }),
           (1, { buffer := [], capacity := 256, closed := false })] := by
  decide

/-- Claim C6 (code bug): exiting the subscription scope with a pending
cancellation leaks the subscription.  The receive half gets closed, but
the `finally` block's `trio.Lock.acquire` raises Cancelled at its
checkpoint before the removal runs, so the (now dead) send half stays in
the subscriber set: after a subscribe/cancelled-exit cycle the set has
size 1, not 0, while a normal exit does empty it. -/
theorem subscribe_cancelled_exit_leaks :
    (((Event.init Nat "e").subscribeEnter 0).subscribeExit 0 true).channels
      = [(0, { buffer := [], capacity := 256, closed := true })] ∧
    (((Event.init Nat "e").subscribeEnter 0).subscribeExit 0 false).channels = [] := by
  decide

/-- Claim C8: constructing the registry is a total operation; it declares
exactly the fifteen events of the table, each with its declared name
string and an empty initial subscriber set, and field access on the
constructed value is definitionally determined, so every access yields
the same instance. -/
theorem events_registry_table :
    Events.init.names
      = ["listening", "session-created", "session-idle",
         "handshake-complete", "handshake-timeout",
         "sent-Ping", "sent-Pong", "sent-FindNodes", "sent-FoundNodes",
         "sent-Advertise", "sent-Ack", "sent-Locate", "sent-Locations",
         "sent-Retrieve", "sent-Chunk"] ∧
    Events.init.allEmpty := by
  exact ⟨rfl, rfl, rfl, rfl, rfl, rfl, rfl, rfl, rfl, rfl, rfl, rfl, rfl, rfl, rfl, rfl⟩

/-- Claim C9: triggering an event with an empty subscriber set completes
normally and performs no queue operation — the delivery loop accepts the
payload vacuously and the subscriber list is returned unchanged. -/
theorem trigger_empty_subscribers_noop (α : Type) (s : Event α) (p : α)
    (h : s.channels = []) :
    s.trigger p = SendRes.ok s.channels := by
  unfold Event.trigger
  rw [h]
  rfl

/-- Witness for C9 at a concrete event. -/
theorem trigger_empty_subscribers_noop_witness :
    (Event.init Nat "listening").trigger 3 = SendRes.ok (Event.init Nat "listening").channels :=
  trigger_empty_subscribers_noop Nat (Event.init Nat "listening") 3 rfl

/-- Claim C1 amended: when the delivery snapshot contains a closed channel,
`trigger` delivers the payload to the subscribers that precede it in the
iteration order and then raises BrokenResourceError out of the call; the
closed subscriber and every subscriber after it in the snapshot receive
nothing for this call. -/
theorem trigger_closed_propagates (α : Type) (s : Event α) (p : α)
    (pre post : List (Nat × Channel α)) (j : Nat) (c : Channel α)
    (hch : s.channels = pre ++ (j, c) :: post)
    (hpre : ∀ e ∈ pre, e.2.closed = false ∧ e.2.buffer.length < e.2.capacity)
    (hc : c.closed = true) :
    s.trigger p
      = SendRes.error Exc.brokenResource (pre.map (pushPayload p) ++ (j, c) :: post) := by
  unfold Event.trigger
  rw [hch]
  clear hch
  revert hpre
  induction pre with
  | nil =>
    intro _
    simp only [List.nil_append, List.map_nil, sendAll]
    rw [if_pos hc]
  | cons e rest ih =>
    intro hpre
    have he := hpre e (List.mem_cons_self _ _)
    have hrest := fun x hx => hpre x (List.mem_cons_of_mem _ hx)
    simp only [List.cons_append, List.map_cons, sendAll]
    rw [if_neg (by simp [he.1]), if_neg (Nat.not_le.mpr he.2)]
    simp only [List.append_eq]
    rw [ih hrest]
    rfl

/-- Witness for the amended C1: one live subscriber before the closed one,
one after; the live one before is served, the trailing one is not, and the
exception escapes. -/
theorem trigger_closed_propagates_witness :
    Event.trigger
        { name := "e",
          channels := [(1, freshChannel Nat),
                       (0, { buffer := [], capacity := 256, closed := true }),
                       (2, freshChannel Nat)] } 5
      = SendRes.error Exc.brokenResource
          ([(1, freshChannel Nat)].map (pushPayload 5)
            ++ (0, { buffer := [], capacity := 256, closed := true }) :: [(2, freshChannel Nat)]) :=
  trigger_closed_propagates Nat
    { name := "e",
      channels := [(1, freshChannel Nat),
                   (0, { buffer := [], capacity := 256, closed := true }),
                   (2, freshChannel Nat)] } 5
    [(1, freshChannel Nat)] [(2, freshChannel Nat)] 0
    { buffer := [], capacity := 256, closed := true }
    rfl (by decide) rfl

/-- Claim C10: one subscription's registration and teardown (on either
exit path) leave every other subscriber's registration status and queue
contents unchanged. -/
theorem subscribe_frame_other_subscribers (α : Type) (s : Event α) (id id' : Nat) (b : Bool)
    (h : id' ≠ id) :
    lookupChan (s.subscribeEnter id).channels id' = lookupChan s.channels id' ∧
    lookupChan (s.subscribeExit id b).channels id' = lookupChan s.channels id' := by
  constructor
  · simp only [Event.subscribeEnter]
    rw [lookupChan_append]
    cases hl : lookupChan s.channels id' with
    | some c => rfl
    | none =>
      rw [lookupChan_cons, if_neg (by simpa using fun hx : id = id' => h hx.symm)]
      rfl
  · cases b with
    | true =>
      simp only [Event.subscribeExit, if_pos]
      exact lookupChan_close_other _ _ _ h
    | false =>
      simp only [Event.subscribeExit]
      rw [if_neg (by simp)]
      rw [lookupChan_filter_other _ _ _ h, lookupChan_close_other _ _ _ h]

/-- Witness for C10 on a concrete two-subscriber event (normal exit path). -/
theorem subscribe_frame_other_subscribers_witness :
    lookupChan (Event.subscribeEnter
        { name := "e", channels := [(0, freshChannel Nat), (1, { buffer := [4], capacity := 256, closed := false })] }
        2).channels 1
      = lookupChan [(0, freshChannel Nat), (1, { buffer := [4], capacity := 256, closed := false })] 1 ∧
    lookupChan (Event.subscribeExit
        { name := "e", channels := [(0, freshChannel Nat), (1, { buffer := [4], capacity := 256, closed := false })] }
        2 false).channels 1
      = lookupChan [(0, freshChannel Nat), (1, { buffer := [4], capacity := 256, closed := false })] 1 :=
  subscribe_frame_other_subscribers Nat
    { name := "e", channels := [(0, freshChannel Nat), (1, { buffer := [4], capacity := 256, closed := false })] }
    2 1 false (by decide)

theorem triggerFold_fill (name : String) (C : Nat) (ps : List α) :
    ∀ buf : List α, buf.length + ps.length ≤ C →
    triggerFold { name := name, channels := [(0, { buffer := buf, capacity := C, closed := false })] } ps
      = some { name := name, channels := [(0, { buffer := buf ++ ps, capacity := C, closed := false })] } := by
  induction ps with
  | nil =>
    intro buf h
    simp [triggerFold]
  | cons p rest ih =>
    intro buf h
    simp only [List.length_cons] at h
    have hlt : buf.length < C := by omega
    have h2 : (buf ++ [p]).length + rest.length ≤ C := by
      simp only [List.length_append, List.length_cons, List.length_nil]
      omega
    have hstep := ih (buf ++ [p]) h2
    rw [List.append_cons buf p rest]
    simp only [triggerFold, Event.trigger, sendAll]
    rw [if_neg (by simp), if_neg (Nat.not_le.mpr hlt)]
    exact hstep

/-- Claim C7: `subscribe` wires a queue of capacity exactly 256 into the
subscriber set; with capacity C, a subscriber that never receives accepts
the first C triggers, the (C+1)-th trigger stays pending with no state
change (nothing dropped, nothing raised), and once the subscriber drains
one slot a retry of that trigger completes, queueing its payload behind
the remaining ones. -/
theorem subscription_capacity_backpressure (C : Nat) (ps : List Nat) (q x : Nat)
    (rest : List Nat) (hlen : ps.length = C) (hcons : ps = x :: rest) :
    ((Event.init Nat "e").subscribeEnter 7).channels = [(7, freshChannel Nat)] ∧
    (freshChannel Nat).capacity = 256 ∧
    triggerFold { name := "e", channels := [(0, { buffer := [], capacity := C, closed := false })] } ps
      = some { name := "e", channels := [(0, { buffer := ps, capacity := C, closed := false })] } ∧
    Event.trigger { name := "e", channels := [(0, { buffer := ps, capacity := C, closed := false })] } q
      = SendRes.blocked [(0, { buffer := ps, capacity := C, closed := false })] ∧
    Channel.receive { buffer := ps, capacity := C, closed := false }
      = some (x, { buffer := rest, capacity := C, closed := false }) ∧
    Event.trigger { name := "e", channels := [(0, { buffer := rest, capacity := C, closed := false })] } q
      = SendRes.ok [(0, { buffer := rest ++ [q], capacity := C, closed := false })] := by
  refine ⟨rfl, rfl, ?_, ?_, ?_, ?_⟩
  · have := triggerFold_fill "e" C ps [] (by simp [hlen])
    simpa using this
  · simp only [Event.trigger, sendAll]
    rw [if_neg (by simp), if_pos (by rw [hlen])]
  · rw [hcons]
    rfl
  · have hr : rest.length < C := by
      rw [hcons] at hlen
      simp only [List.length_cons] at hlen
      omega
    simp only [Event.trigger, sendAll]
    rw [if_neg (by simp), if_neg (Nat.not_le.mpr hr)]

/-- Witness for C7 at capacity 2 with payloads 1, 2 queued and 9 pending. -/
theorem subscription_capacity_backpressure_witness :
    ((Event.init Nat "e").subscribeEnter 7).channels = [(7, freshChannel Nat)] ∧
    (freshChannel Nat).capacity = 256 ∧
    triggerFold { name := "e", channels := [(0, { buffer := [], capacity := 2, closed := false })] } [1, 2]
      = some { name := "e", channels := [(0, { buffer := [1, 2], capacity := 2, closed := false })] } ∧
    Event.trigger { name := "e", channels := [(0, { buffer := [1, 2], capacity := 2, closed := false })] } 9
      = SendRes.blocked [(0, { buffer := [1, 2], capacity := 2, closed := false })] ∧
    Channel.receive { buffer := [1, 2], capacity := 2, closed := false }
      = some (1, { buffer := [2], capacity := 2, closed := false }) ∧
    Event.trigger { name := "e", channels := [(0, { buffer := [2], capacity := 2, closed := false })] } 9
      = SendRes.ok [(0, { buffer := [2] ++ [9], capacity := 2, closed := false })] :=
  subscription_capacity_backpressure 2 [1, 2] 9 1 [2] rfl rfl

end Alexandria
